import Mathlib

/-!
# Verification of the ambient-sound-analysis-api clip pipeline

A shallow embedding, in Lean 4, of the orcasound ambient-sound-analysis-api
worker (`src/worker.ts`), CLI batch driver (`src/cli.ts`) and analytics module
(`computeMetrics`), together with theorems settling the specification claims
about segment selection, job fingerprints, PSD framing, transience rate,
batch summaries, copy-failure behaviour, empty-window behaviour, artifact
basenames, and the psd-without-wav failure mode.

Conventions of the embedding:
* JavaScript numbers that the pipeline uses as millisecond timestamps are
  modelled as `Int`; `Date.parse` returning `NaN` is modelled as `none`.
* Floating-point sample values in the analytics module are idealised as `ℚ`;
  the FFT-magnitude library call (`util.fftMag(fft(·))` from `fft-js`) is a
  numeric routine whose values none of the claims depend on, so it is passed
  as an explicit function parameter `g`.
* Effectful operations (HTTP fetch, spawning ffmpeg, file system) are supplied
  by an `Env` record, and the file-system writes the worker performs are
  recorded in order as a trace of `FsEffect`s.
* `crypto.createHash('sha256')...digest('hex')` is embedded as a complete
  executable SHA-256 (FIPS 180-4) over byte lists, so that fingerprints of
  concrete jobs evaluate inside Lean.
-/

/-! ## SHA-256 (FIPS 180-4), executable over `List ℕ` of bytes -/

/-- 2^32, the modulus of SHA-256 word arithmetic. -/
def w32mod : ℕ := 4294967296

/-- Addition of 32-bit words, wrapping modulo 2^32. -/
def add32 (a b : ℕ) : ℕ := (a + b) % w32mod

/-- Right rotation of a 32-bit word by `n` places. -/
def rotr32 (n x : ℕ) : ℕ := ((x >>> n) ||| (x <<< (32 - n))) % w32mod

/-- Bitwise complement within 32 bits. -/
def not32 (x : ℕ) : ℕ := x ^^^ 4294967295

/-- SHA-256 `Ch` function. -/
def sha256Ch (e f g : ℕ) : ℕ := (e &&& f) ^^^ (not32 e &&& g)

/-- SHA-256 `Maj` function. -/
def sha256Maj (a b c : ℕ) : ℕ := (a &&& b) ^^^ (a &&& c) ^^^ (b &&& c)

/-- SHA-256 big Σ₀. -/
def bigSigma0 (x : ℕ) : ℕ := rotr32 2 x ^^^ rotr32 13 x ^^^ rotr32 22 x

/-- SHA-256 big Σ₁. -/
def bigSigma1 (x : ℕ) : ℕ := rotr32 6 x ^^^ rotr32 11 x ^^^ rotr32 25 x

/-- SHA-256 small σ₀. -/
def smallSigma0 (x : ℕ) : ℕ := rotr32 7 x ^^^ rotr32 18 x ^^^ (x >>> 3)

/-- SHA-256 small σ₁. -/
def smallSigma1 (x : ℕ) : ℕ := rotr32 17 x ^^^ rotr32 19 x ^^^ (x >>> 10)

/-- The 64 SHA-256 round constants K₀‥K₆₃ (the fractional parts of the cube
roots of the first 64 primes), packed big-endian into one integer, K₀ in the
most significant 32 bits. -/
def sha256KPacked : ℕ :=
  8399870144517823301722239222130927227141849779511242471197906795369846673996008864786532278482947930035050432913372875699354429524650716672308175015812472005008943341011247634627600705591103756174659437448007297240981034636327441933849465611186184660803773840414514428031635770391245199770927811112653141372483794982516161135727373084047811483050876080270389320947077305721183235613169389468744126235534648516788175255292025668825020963291224099932572215580391753777671218957634024159536228058522778003881673030597872562207069818177476920296259993961459554031943090626293016819766823808480230688357231269177224952050

/-- The SHA-256 round constants as a list, K₀ first. -/
def sha256K : List ℕ :=
  (List.range 64).map (fun i => (sha256KPacked >>> (32 * (63 - i))) % 4294967296)

/-- The starting hash H⁽⁰⁾ (the fractional parts of the square roots of the
first 8 primes), packed big-endian, first word most significant. -/
def sha256H0Packed : ℕ :=
  47962653771679561900652889051773562940742041696833059450490514104358170316057

/-- The SHA-256 starting hash value H⁽⁰⁾ as a list. -/
def sha256H0 : List ℕ :=
  (List.range 8).map (fun i => (sha256H0Packed >>> (32 * (7 - i))) % 4294967296)

/-- FIPS 180-4 padding: append `0x80`, zero bytes to 56 mod 64, then the
bit length as 8 big-endian bytes. -/
def sha256Pad (msg : List ℕ) : List ℕ :=
  let len := msg.length
  let zeros := (119 - len % 64) % 64
  let lenBits := len * 8
  msg ++ [0x80] ++ List.replicate zeros 0 ++
    [(lenBits >>> 56) % 256, (lenBits >>> 48) % 256, (lenBits >>> 40) % 256,
     (lenBits >>> 32) % 256, (lenBits >>> 24) % 256, (lenBits >>> 16) % 256,
     (lenBits >>> 8) % 256, lenBits % 256]

/-- Split a list into consecutive chunks of `n` (a trailing partial chunk is
dropped; all callers pass lists whose length is a multiple of `n`). -/
def chunksOf (n : ℕ) (l : List α) : List (List α) :=
  (List.range (l.length / n)).map (fun j => (l.drop (j * n)).take n)

/-- Four big-endian bytes as one 32-bit word. -/
def wordOfBytes : List ℕ → ℕ
  | [b0, b1, b2, b3] => ((b0 <<< 24) ||| (b1 <<< 16) ||| (b2 <<< 8) ||| b3)
  | _ => 0

/-- Extend a 16-word block to the 64-word message schedule (`fuel` = 48). -/
def sha256Extend : ℕ → List ℕ → List ℕ
  | 0, ws => ws
  | fuel + 1, ws =>
      let n := ws.length
      let w := add32 (add32 (smallSigma1 (ws.getD (n - 2) 0)) (ws.getD (n - 7) 0))
                     (add32 (smallSigma0 (ws.getD (n - 15) 0)) (ws.getD (n - 16) 0))
      sha256Extend fuel (ws ++ [w])

/-- Working state of the compression function. -/
structure Sha256St where
  a : ℕ
  b : ℕ
  c : ℕ
  d : ℕ
  e : ℕ
  f : ℕ
  g : ℕ
  h : ℕ

/-- One SHA-256 round, driven by a `(Kₜ, Wₜ)` pair. -/
def sha256Round (st : Sha256St) (kw : ℕ × ℕ) : Sha256St :=
  let t1 := add32 (add32 (add32 st.h (bigSigma1 st.e))
                         (sha256Ch st.e st.f st.g))
                  (add32 kw.1 kw.2)
  let t2 := add32 (bigSigma0 st.a) (sha256Maj st.a st.b st.c)
  { a := add32 t1 t2, b := st.a, c := st.b, d := st.c,
    e := add32 st.d t1, f := st.e, g := st.f, h := st.g }

/-- Compress one 16-word block into the running hash value. -/
def sha256Compress (hv : List ℕ) (block : List ℕ) : List ℕ :=
  let st0 : Sha256St :=
    { a := hv.getD 0 0, b := hv.getD 1 0, c := hv.getD 2 0, d := hv.getD 3 0,
      e := hv.getD 4 0, f := hv.getD 5 0, g := hv.getD 6 0, h := hv.getD 7 0 }
  let ws := sha256Extend 48 block
  let st := (sha256K.zip ws).foldl sha256Round st0
  [add32 (hv.getD 0 0) st.a, add32 (hv.getD 1 0) st.b,
   add32 (hv.getD 2 0) st.c, add32 (hv.getD 3 0) st.d,
   add32 (hv.getD 4 0) st.e, add32 (hv.getD 5 0) st.f,
   add32 (hv.getD 6 0) st.g, add32 (hv.getD 7 0) st.h]

/-- SHA-256 digest of a byte list, as eight 32-bit words. -/
def sha256Words (msg : List ℕ) : List ℕ :=
  ((chunksOf 64 (sha256Pad msg)).map (fun blk => (chunksOf 4 blk).map wordOfBytes)).foldl
    sha256Compress sha256H0

/-- Lower-case hex digit for `n < 16`. -/
def hexDigit (n : ℕ) : Char :=
  if n < 10 then Char.ofNat (48 + n) else Char.ofNat (87 + n)

/-- A 32-bit word as 8 lower-case hex characters. -/
def wordHex (w : ℕ) : String :=
  String.mk ((List.range 8).map (fun i => hexDigit ((w >>> (28 - 4 * i)) % 16)))

/-- SHA-256 digest of a byte list as the usual 64-character hex string
(`crypto.createHash('sha256').update(s).digest('hex')`). -/
def sha256Hex (msg : List ℕ) : String :=
  String.join ((sha256Words msg).map wordHex)

/-- The bytes of a string. The strings the pipeline hashes are ASCII, where
UTF-8 bytes coincide with code points. -/
def strBytes (s : String) : List ℕ := s.toList.map Char.toNat

/-! ## Dates and paths

`Date.parse` values are epoch milliseconds (`Int`); the civil-field helpers
below follow the standard days-to-civil algorithm. The container (see the
repository Dockerfile, `node:18` with no `TZ` set) runs in UTC, so
`getFullYear`/`getMonth`/`getDate` coincide with the UTC fields used by
`toISOString`. -/

/-- The civil (proleptic Gregorian, UTC) fields of an epoch-millisecond
timestamp. -/
structure DateParts where
  year : ℕ
  month : ℕ
  day : ℕ
  hour : ℕ
  minute : ℕ
  second : ℕ
  millis : ℕ
deriving DecidableEq, Repr

/-- Epoch milliseconds to civil UTC fields (valid from year 0 on, which
covers every timestamp the pipeline handles). -/
def dateParts (ms : Int) : DateParts :=
  let days : Int := ms / 86400000
  let msod : ℕ := (ms % 86400000).toNat
  let zn : ℕ := (days + 719468).toNat
  let era := zn / 146097
  let doe := zn % 146097
  let yoe := (doe - doe / 1460 + doe / 36524 - doe / 146096) / 365
  let y := yoe + era * 400
  let doy := doe - (365 * yoe + yoe / 4 - yoe / 100)
  let mp := (5 * doy + 2) / 153
  let d := doy - (153 * mp + 2) / 5 + 1
  let m := if mp < 10 then mp + 3 else mp - 9
  { year := if m ≤ 2 then y + 1 else y, month := m, day := d,
    hour := msod / 1000 / 3600, minute := msod / 1000 % 3600 / 60,
    second := msod / 1000 % 60, millis := msod % 1000 }

/-- A number as at least two digits (`String(n).padStart(2, '0')`). -/
def pad2 (n : ℕ) : String := if n < 10 then "0" ++ toString n else toString n

/-- A number as at least three digits. -/
def pad3 (n : ℕ) : String :=
  if n < 10 then "00" ++ toString n
  else if n < 100 then "0" ++ toString n else toString n

/-- A number as at least four digits. -/
def pad4 (n : ℕ) : String :=
  if n < 10 then "000" ++ toString n
  else if n < 100 then "00" ++ toString n
  else if n < 1000 then "0" ++ toString n else toString n

/-- `new Date(ms).toISOString()`: `YYYY-MM-DDTHH:MM:SS.sssZ` (four-digit
years, the only kind the pipeline's feeds produce). -/
def toISOString (ms : Int) : String :=
  let p := dateParts ms
  pad4 p.year ++ "-" ++ pad2 p.month ++ "-" ++ pad2 p.day ++ "T" ++
    pad2 p.hour ++ ":" ++ pad2 p.minute ++ ":" ++ pad2 p.second ++ "." ++
    pad3 p.millis ++ "Z"

/-- `toISOString().slice(0,19).replace(/[-:T]/g, '')`: the compact
`YYYYMMDDHHMMSS` stamp. (The source's final `.replace(/Z$/, '')` is a no-op,
since slicing to 19 characters already removed the `Z`.) -/
def dtShort (ms : Int) : String :=
  String.mk (((toISOString ms).take 19).toList.filter
    (fun c => !(c == '-' || c == ':' || c == 'T')))

/-- The characters after the last `'/'` (accumulator holds the current
component reversed). -/
def lastComponent : List Char → List Char → List Char
  | [], acc => acc.reverse
  | c :: cs, acc => if c = '/' then lastComponent cs [] else lastComponent cs (c :: acc)

/-- `path.basename`: the final path component (the paths the worker builds
never end in a separator). -/
def baseName (p : String) : String := String.mk (lastComponent p.toList [])

/-- Whether `pre` is a prefix of `l`, character by character. -/
def isPrefList : List Char → List Char → Bool
  | [], _ => true
  | _ :: _, [] => false
  | a :: as, b :: bs => a == b && isPrefList as bs

/-- Whether `sub` occurs as a contiguous substring of `s`. -/
def strContains (s sub : String) : Bool :=
  go sub.toList s.toList
where
  /-- Try every suffix of the second list. -/
  go (sub : List Char) : List Char → Bool
    | [] => sub.isEmpty
    | c :: cs => isPrefList sub (c :: cs) || go sub cs

/-- Whether `s` ends with `suffix`. -/
def strHasSuffix (s suffix : String) : Bool :=
  isPrefList suffix.toList.reverse s.toList.reverse

/-! ## Data model (`src/worker.ts`)

The `end` field of `ClipJob` (a Lean keyword) is embedded as `endT`. The
`s3Bucket`/`s3Prefix`/`out` fields are omitted: the S3 upload block in the
source is commented out, so nothing the executed code does reads them. -/

/-- The output formats `Array<'wav' | 'flac' | 'psd'>`. -/
inductive Fmt
  | wav
  | flac
  | psd
deriving DecidableEq, Repr

/-- The literal string of a format. -/
def fmtStr : Fmt → String
  | .wav => "wav"
  | .flac => "flac"
  | .psd => "psd"

/-- An HLS media segment: its URI and its `programDateTime`, parsed to epoch
milliseconds. `none` stands for a segment with no `programDateTime` (the
falsy check in the source) or one whose date fails to parse (`NaN`, which
fails both comparisons in the source and is likewise never selected). -/
structure Segment where
  uri : String
  programDateTime : Option Int
deriving DecidableEq, Repr

/-- A parsed HLS playlist (`HLS.parse`): master, or media with segments. -/
inductive Playlist
  | master
  | media (segments : List Segment)
deriving DecidableEq, Repr

/-- A clip-extraction job (interface `ClipJob`). -/
structure ClipJob where
  feedId : Option String := none
  feedSlug : String
  start : String
  endT : String
  formats : List Fmt
  m3u8Url : Option String
deriving DecidableEq, Repr

/-- The result of a processed job (interface `ClipResult`): `urls` is a
string-keyed record, embedded as an association list in insertion order. -/
structure ClipResult where
  urls : List (String × String)
  hash : String
deriving DecidableEq, Repr

deriving instance DecidableEq for Except

/-- A file-system write the worker performs, in program order. -/
inductive FsEffect
  | mkdir (p : String)
  | write (p : String)
  | copy (src dest : String)
deriving DecidableEq, Repr

/-- The worker's effectful context: `Date.parse`, the HTTP fetch plus
`HLS.parse` of the playlist, the exit code of a spawned ffmpeg (nonzero also
stands for a spawn error), whether `readFileSync` succeeds on a path, whether
`existsSync` holds for a directory, and whether `copyFileSync` succeeds.
The env is a static oracle: it answers the same throughout one run. -/
structure Env where
  dateParse : String → Option Int
  fetch : String → Except String Playlist
  ffmpegExit : List String → Int
  readOk : String → Bool
  dirExists : String → Bool
  copyOk : String → String → Bool

/-! ## The worker (`processJob`, `src/worker.ts`) -/

/-- Lines 77–83: keep the segments whose `programDateTime` parses to a
timestamp `ts` with `startTs ≤ ts < endTs`; segments without one are
dropped. -/
def selectSegments (startTs endTs : Int) (segs : List Segment) : List Segment :=
  segs.filter (fun seg =>
    match seg.programDateTime with
    | none => false
    | some ts => decide (startTs ≤ ts) && decide (ts < endTs))

/-- Lines 93–97: the idempotency fingerprint,
`sha256(feedSlug|start|end|formats.join(',')).hex.slice(0, 8)`. -/
def jobHash (feedSlug start endT : String) (formats : List Fmt) : String :=
  (sha256Hex (strBytes (feedSlug ++ "|" ++ start ++ "|" ++ endT ++ "|" ++
    String.intercalate "," (formats.map fmtStr)))).take 8

/-- Lines 129–139: the argument vector of one ffmpeg invocation. For `psd`
neither branch appends a codec or an output file. -/
def ffmpegArgs (listFile : String) (fmt : Fmt) (outFile : String) : List String :=
  ["-protocol_whitelist", "file,http,https,tcp,tls",
   "-f", "concat", "-safe", "0", "-i", listFile, "-ac", "1", "-ar", "48000"] ++
  (match fmt with
   | .wav => ["-c:a", "pcm_s16le", outFile]
   | .flac => ["-c:a", "flac", outFile]
   | .psd => [])

/-- Assignment to a string-keyed JS record: update the existing key in place,
else append (JS objects keep string-key insertion order). -/
def upsert (k v : String) : List (String × String) → List (String × String)
  | [] => [(k, v)]
  | (k', v') :: rest => if k' = k then (k, v) :: rest else (k', v') :: upsert k v rest

/-- Reading `outs[k]` from a string-keyed JS record. -/
def alookup (k : String) : List (String × String) → Option String
  | [] => none
  | (k', v) :: rest => if k' = k then some v else alookup k rest

/-- Lines 127–158: run ffmpeg once per requested format, in order; record
`outputs[fmt] = outFile`; a nonzero exit rejects the whole job. -/
def ffmpegLoop (env : Env) (tmpDir base listFile : String) :
    List Fmt → List (String × String) → Except String (List (String × String))
  | [], outs => .ok outs
  | fmt :: rest, outs =>
      let outFile := tmpDir ++ "/" ++ base ++ "." ++ fmtStr fmt
      let code := env.ffmpegExit (ffmpegArgs listFile fmt outFile)
      if code = 0 then
        ffmpegLoop env tmpDir base listFile rest (upsert (fmtStr fmt) outFile outs)
      else
        .error ("ffmpeg " ++ fmtStr fmt ++ " exited " ++ toString code)

/-- Lines 160–170: when `psd` is among the formats, read the WAV output
(`outputs['wav']` — absent keys make `readFileSync` throw on an undefined
path), compute metrics, and write `<base>.psd.json`. -/
def analyticsStep (env : Env) (tmpDir base : String) (formats : List Fmt)
    (outs : List (String × String)) (eff : List FsEffect) :
    Except String (List (String × String) × List FsEffect) :=
  if formats.contains Fmt.psd then
    match alookup "wav" outs with
    | none => .error "TypeError: the path argument is undefined"
    | some wavPath =>
        if env.readOk wavPath then
          let metricsPath := tmpDir ++ "/" ++ base ++ ".psd.json"
          .ok (upsert "psd" metricsPath outs, eff ++ [FsEffect.write metricsPath])
        else .error ("ENOENT: no such file " ++ wavPath)
  else .ok (outs, eff)

/-- Lines 208–217: copy every entry of `outputs` to the shared output
directory. A failed copy is caught and only logged: the entry is skipped,
entries already copied stay on disk, and the loop continues. -/
def copyLoop (env : Env) (outputDir : String) :
    List (String × String) → List (String × String) → List FsEffect →
    List (String × String) × List FsEffect
  | [], urls, eff => (urls, eff)
  | (fmt, localPath) :: rest, urls, eff =>
      let destPath := outputDir ++ "/" ++ baseName localPath
      if env.copyOk localPath destPath then
        copyLoop env outputDir rest (urls ++ [(fmt, destPath)])
          (eff ++ [FsEffect.copy localPath destPath])
      else
        copyLoop env outputDir rest urls eff

/-- The fingerprint of a job, from its own fields (line 93–97). -/
def jobHashOf (job : ClipJob) : String :=
  jobHash job.feedSlug job.start job.endT job.formats

/-- Line 101: `Math.round((endTs - startTs) / 1000)`, the clip duration in
seconds (for a validated window the difference is positive, where JS
rounding is `⌊x + 1/2⌋`). -/
def jobDur (startTs endTs : Int) : ℕ := ((endTs - startTs + 500) / 1000).toNat

/-- Lines 105–106: the per-clip file stem
`<feedSlug>_<YYYYMMDDHHMMSS>_<duration>s` — the fingerprint is not part of
it. -/
def jobBase (job : ClipJob) (startTs endTs : Int) : String :=
  job.feedSlug ++ "_" ++ dtShort startTs ++ "_" ++
    toString (jobDur startTs endTs) ++ "s"

/-- Lines 107–108: the temp directory `tmp/<base>_<hash>` (the only name
that carries the fingerprint). -/
def jobTmpDir (cwd : String) (job : ClipJob) (startTs endTs : Int) : String :=
  cwd ++ "/tmp/" ++ (jobBase job startTs endTs ++ "_" ++ jobHashOf job)

/-- Line 120: the ffmpeg concat list file. -/
def jobListFile (cwd : String) (job : ClipJob) (startTs endTs : Int) : String :=
  jobTmpDir cwd job startTs endTs ++ "/segments.txt"

/-- Line 199: the sidecar metadata document `<base>.meta.json`. -/
def jobMetaPath (cwd : String) (job : ClipJob) (startTs endTs : Int) : String :=
  jobTmpDir cwd job startTs endTs ++ "/" ++ jobBase job startTs endTs ++ ".meta.json"

/-- Line 204: the shared output directory
`output/clips/<feedSlug>/<YYYY>/<MM>/<DD>`. -/
def jobOutputDir (cwd : String) (job : ClipJob) (startTs : Int) : String :=
  cwd ++ "/output/clips/" ++ job.feedSlug ++ "/" ++
    toString (dateParts startTs).year ++ "/" ++ pad2 (dateParts startTs).month ++
    "/" ++ pad2 (dateParts startTs).day

/-- `processJob` (`src/worker.ts`, lines 53–237): validate the window, fetch
and filter the playlist, fingerprint the job, create the temp directory and
concat list, run ffmpeg per format, compute analytics for `psd`, write the
meta sidecar, and copy everything to
`output/clips/<feedSlug>/<YYYY>/<MM>/<DD>/`. The returned trace lists the
file-system writes in program order; an error keeps the writes made so
far. -/
def processJob (env : Env) (cwd : String) (job : ClipJob) :
    Except String ClipResult × List FsEffect :=
  match env.dateParse job.start, env.dateParse job.endT with
  | some startTs, some endTs =>
    if endTs ≤ startTs then
      (.error ("Invalid time window: " ++ job.start ++ " → " ++ job.endT), [])
    else
      match job.m3u8Url with
      | none =>
          (.error ("Failed to fetch playlist for " ++ job.feedSlug ++
            ": Error: m3u8Url is required"), [])
      | some url =>
        match env.fetch url with
        | .error e =>
            (.error ("Failed to fetch playlist for " ++ job.feedSlug ++ ": " ++ e), [])
        | .ok .master =>
            (.error ("[" ++ job.feedSlug ++
              "] Provided playlist is a MasterPlaylist, expected a MediaPlaylist: " ++ url), [])
        | .ok (.media segs) =>
          let segments := selectSegments startTs endTs segs
          if segments.length = 0 then
            (.error ("No segments in range [" ++ job.start ++ " → " ++ job.endT ++ "]"), [])
          else
            let tmpDir := jobTmpDir cwd job startTs endTs
            let base := jobBase job startTs endTs
            let listFile := jobListFile cwd job startTs endTs
            let eff0 : List FsEffect := [.mkdir tmpDir, .write listFile]
            match ffmpegLoop env tmpDir base listFile job.formats [] with
            | .error e => (.error e, eff0)
            | .ok outs0 =>
              match analyticsStep env tmpDir base job.formats outs0 eff0 with
              | .error e => (.error e, eff0)
              | .ok (outs1, eff1) =>
                let metaPath := jobMetaPath cwd job startTs endTs
                let outs2 := upsert "meta" metaPath outs1
                let eff2 := eff1 ++ [FsEffect.write metaPath]
                let outputDir := jobOutputDir cwd job startTs
                let eff3 := eff2 ++
                  (if env.dirExists outputDir then [] else [FsEffect.mkdir outputDir])
                let done := copyLoop env outputDir outs2 [] eff3
                (.ok { urls := done.1, hash := jobHashOf job }, done.2)
  | _, _ =>
      (.error ("Invalid time window: " ++ job.start ++ " → " ++ job.endT), [])

/-! ## The CLI batch driver (`src/cli.ts`) -/

/-- One CSV manifest row (`feedSlug`, `start`, `end`, optional `comment` and
`feedId`). The `end` column is embedded as `endT`. -/
structure Row where
  feedSlug : String
  start : String
  endT : String
  comment : Option String := none
  feedId : Option String := none
deriving DecidableEq, Repr

/-- Lines 48–56: the `ClipJob` built from a manifest row (the playlist URL is
derived from the feed slug). -/
def rowJob (fmts : List Fmt) (r : Row) : ClipJob :=
  { feedId := r.feedId, feedSlug := r.feedSlug, start := r.start, endT := r.endT,
    formats := fmts,
    m3u8Url := some ("https://live.orcasound.net/" ++ r.feedSlug ++ "/playlist.m3u8") }

/-- One entry of the batch summary: the row's identifying columns plus either
the result urls (success) or the error message (failure). -/
inductive SummaryEntry
  | ok (feedSlug start endT : String) (comment : Option String)
       (urls : List (String × String))
  | err (feedSlug start endT : String) (comment : Option String) (msg : String)
deriving DecidableEq, Repr

/-- The summary entry recorded for one row, from its `processJob` outcome
(the `try`/`catch` of lines 57–63). -/
def entryOf (r : Row) : Except String ClipResult → SummaryEntry
  | .ok cr => .ok r.feedSlug r.start r.endT r.comment cr.urls
  | .error msg => .err r.feedSlug r.start r.endT r.comment msg

/-- Lines 47–64: process the manifest rows in order; every row contributes
exactly one summary entry, and a caught failure moves on to the next row. -/
def batchLoop (env : Env) (cwd : String) (fmts : List Fmt) :
    List Row → List SummaryEntry × List FsEffect
  | [] => ([], [])
  | r :: rest =>
      let this := processJob env cwd (rowJob fmts r)
      let rest' := batchLoop env cwd fmts rest
      (entryOf r this.1 :: rest'.1, this.2 ++ rest'.2)

/-- Lines 67–71: the partitioned output directory derived from a row's feed
slug and start date. An unparseable start yields `NaN` path components, as
`String(new Date(bad).getFullYear())` does. -/
def groupDir (env : Env) (cwd : String) (r : Row) : String :=
  match env.dateParse r.start with
  | some ts =>
      let p := dateParts ts
      cwd ++ "/output/clips/" ++ r.feedSlug ++ "/" ++ toString p.year ++ "/" ++
        pad2 p.month ++ "/" ++ pad2 p.day
  | none => cwd ++ "/output/clips/" ++ r.feedSlug ++ "/NaN/NaN/NaN"

/-- `main`'s batch mode (lines 39–76): run every row, then — when the
manifest is nonempty — write the single `pairs.json` summary into the
directory derived from the FIRST row. -/
def cliBatch (env : Env) (cwd : String) (fmts : List Fmt) (rows : List Row) :
    List SummaryEntry × List FsEffect :=
  let run := batchLoop env cwd fmts rows
  match rows with
  | [] => run
  | first :: _ =>
      let outDir := groupDir env cwd first
      (run.1,
       run.2 ++ (if env.dirExists outDir then [] else [FsEffect.mkdir outDir]) ++
         [FsEffect.write (outDir ++ "/pairs.json")])

/-! ## The analytics module (`computeMetrics`)

Sample values are idealised as `ℚ`; the composite library call
`util.fftMag(fft(·))` (magnitudes of the radix-2 FFT of a 1024-vector) is the
parameter `g`. JS float literal `0.8` is idealised as `4/5`. -/

/-- Lines 36–43, the framing loop `for (i = 0; i + F <= N; i += F)`: it
visits exactly `i = j*F` for `j < ⌊N/F⌋` and takes `samples.slice(i, i+F)`,
so the chunks are the full `F`-wide windows in time order, the trailing
partial window dropped. -/
def psdChunks (F : ℕ) (samples : List ℚ) : List (List ℚ) :=
  (List.range (samples.length / F)).map (fun j => (samples.drop (j * F)).take F)

/-- Lines 36–43: the PSD, one magnitude spectrum `g(slice)` per frame. -/
def psdOf (g : List ℚ → List ℚ) (samples : List ℚ) : List (List ℚ) :=
  (psdChunks 1024 samples).map g

/-- Line 58: the PSD rows counted as transient. Note the source applies the
FFT-magnitude routine to `win`, which is already a magnitude spectrum — a
second transform — rather than testing `win`'s own bins. -/
def transientWindows (g : List ℚ → List ℚ) (cf : ℚ) (samples : List ℚ) :
    List (List ℚ) :=
  (psdOf g samples).filter (fun win => (g win).any (fun m => decide (m > cf * (4/5))))

/-- Line 59: `transienceRate = transientWindows.length / (samples.length /
fftSize) * 60` — the denominator is the exact quotient `N / 1024`, not the
frame count. -/
def transienceRate (g : List ℚ → List ℚ) (cf : ℚ) (samples : List ℚ) : ℚ :=
  ((transientWindows g cf samples).length : ℚ) / ((samples.length : ℚ) / 1024) * 60

/-- The transience rate as the specification words it: frames whose own
magnitude spectrum has a bin over the threshold, divided by the number of
PSD frames. Stated for comparison with `transienceRate`. -/
def specTransienceRate (g : List ℚ → List ℚ) (cf : ℚ) (samples : List ℚ) : ℚ :=
  (((psdOf g samples).filter
      (fun win => win.any (fun m => decide (m > cf * (4/5))))).length : ℚ) /
    ((psdOf g samples).length : ℚ) * 60

/-! ## Claims -/

/-- **C1.** For every segment list and window `[start, end)`, the selection in
`processJob` returns exactly the segments whose timestamp `ts` satisfies
`start ≤ ts < end` (with multiplicity: a qualifying segment keeps its full
count), never returns a segment lacking a timestamp, and is a sublist of the
input, so the relative input order is preserved. A segment exactly at `end`
fails `ts < end` and is excluded; one exactly at `start` satisfies
`start ≤ ts` and is included. -/
theorem selectSegments_window_exact (startTs endTs : Int) (segs : List Segment) :
    (∀ s ∈ selectSegments startTs endTs segs,
        ∃ ts, s.programDateTime = some ts ∧ startTs ≤ ts ∧ ts < endTs) ∧
    (∀ s : Segment,
        (∃ ts, s.programDateTime = some ts ∧ startTs ≤ ts ∧ ts < endTs) →
        (selectSegments startTs endTs segs).count s = segs.count s) ∧
    (selectSegments startTs endTs segs).Sublist segs := by
  refine ⟨?_, ?_, List.filter_sublist _⟩
  · intro s hs
    rw [selectSegments, List.mem_filter] at hs
    obtain ⟨-, hp⟩ := hs
    cases h : s.programDateTime with
    | none => rw [h] at hp; simp at hp
    | some ts =>
        rw [h] at hp
        simp only [Bool.and_eq_true, decide_eq_true_eq] at hp
        exact ⟨ts, rfl, hp.1, hp.2⟩
  · rintro s ⟨ts, hts, h1, h2⟩
    have hp : (match s.programDateTime with
        | none => false
        | some ts => decide (startTs ≤ ts) && decide (ts < endTs)) = true := by
      rw [hts]
      simp [h1, h2]
    exact List.count_filter hp

/-- Concrete instance of C1: with the window `[0, 60000)` over segments at
`-1`, `0`, `59999`, `60000` and one with no timestamp, the boundary segment
at `start` is kept, the one at `end` is dropped, and the kept segments appear
in input order. -/
theorem selectSegments_window_exact_witness :
    (∃ ts, (Segment.mk "b.ts" (some 0)).programDateTime = some ts ∧
      (0 : Int) ≤ ts ∧ ts < 60000) ∧
    (selectSegments 0 60000
        [⟨"a.ts", some (-1)⟩, ⟨"b.ts", some 0⟩, ⟨"c.ts", some 59999⟩,
         ⟨"d.ts", some 60000⟩, ⟨"e.ts", none⟩]).count ⟨"b.ts", some 0⟩ =
      ([⟨"a.ts", some (-1)⟩, ⟨"b.ts", some 0⟩, ⟨"c.ts", some 59999⟩,
        ⟨"d.ts", some 60000⟩, ⟨"e.ts", none⟩] : List Segment).count ⟨"b.ts", some 0⟩ :=
  ⟨(selectSegments_window_exact 0 60000
      [⟨"a.ts", some (-1)⟩, ⟨"b.ts", some 0⟩, ⟨"c.ts", some 59999⟩,
       ⟨"d.ts", some 60000⟩, ⟨"e.ts", none⟩]).1 ⟨"b.ts", some 0⟩ (by decide),
   (selectSegments_window_exact 0 60000
      [⟨"a.ts", some (-1)⟩, ⟨"b.ts", some 0⟩, ⟨"c.ts", some 59999⟩,
       ⟨"d.ts", some 60000⟩, ⟨"e.ts", none⟩]).2.1 ⟨"b.ts", some 0⟩
     ⟨0, rfl, by decide, by decide⟩⟩

set_option maxRecDepth 1000000 in
/-- **C2, counterexample.** Reordering the formats list changes the
fingerprint: `['wav','flac']` and `['flac','wav']` are permutations of each
other, yet the hash input string differs (`...|wav,flac` vs `...|flac,wav`)
because the source joins the formats as given, without sorting, and the two
truncated digests disagree (`84d46bba` vs `3f8349de`). -/
theorem jobHash_not_order_invariant :
    ([Fmt.flac, Fmt.wav] : List Fmt).Perm [Fmt.wav, Fmt.flac] ∧
    ¬ (jobHash "rpi_orcasound_lab" "2020-01-01T00:00:00Z" "2020-01-01T00:01:00Z"
         [Fmt.wav, Fmt.flac] =
       jobHash "rpi_orcasound_lab" "2020-01-01T00:00:00Z" "2020-01-01T00:01:00Z"
         [Fmt.flac, Fmt.wav]) := by
  constructor
  · decide
  · decide

/-- **C2, amended.** The fingerprint is not canonicalized: `processJob`
hashes `feedSlug|start|end|formats.join(',')` with the formats in the order
given, so the fingerprint is a function of the exact format sequence (the
counterexample shows a permutation changing it), and every successful run
returns precisely that order-sensitive fingerprint in its result. -/
theorem processJob_hash_of_fields (env : Env) (cwd : String) (job : ClipJob)
    (r : ClipResult) (eff : List FsEffect)
    (h : processJob env cwd job = (.ok r, eff)) :
    r.hash = jobHash job.feedSlug job.start job.endT job.formats := by
  unfold processJob at h
  cases hs : env.dateParse job.start with
  | none => rw [hs] at h; simp at h
  | some startTs =>
  cases he : env.dateParse job.endT with
  | none => rw [hs, he] at h; simp at h
  | some endTs =>
  rw [hs, he] at h
  dsimp only [] at h
  by_cases hv : endTs ≤ startTs
  · rw [if_pos hv] at h; simp at h
  rw [if_neg hv] at h
  cases hu : job.m3u8Url with
  | none => rw [hu] at h; simp at h
  | some url =>
  rw [hu] at h
  dsimp only [] at h
  cases hf : env.fetch url with
  | error e => rw [hf] at h; simp at h
  | ok pl =>
  rw [hf] at h
  cases pl with
  | master => simp at h
  | media segs =>
  dsimp only [] at h
  by_cases hlen : (selectSegments startTs endTs segs).length = 0
  · rw [if_pos hlen] at h; simp at h
  rw [if_neg hlen] at h
  cases hfl : ffmpegLoop env (jobTmpDir cwd job startTs endTs) (jobBase job startTs endTs)
      (jobListFile cwd job startTs endTs) job.formats [] with
  | error e => rw [hfl] at h; simp at h
  | ok outs0 =>
  rw [hfl] at h
  dsimp only [] at h
  cases han : analyticsStep env (jobTmpDir cwd job startTs endTs) (jobBase job startTs endTs)
      job.formats outs0
      [FsEffect.mkdir (jobTmpDir cwd job startTs endTs),
       FsEffect.write (jobListFile cwd job startTs endTs)] with
  | error e => rw [han] at h; simp at h
  | ok pr =>
  rw [han] at h
  obtain ⟨outs1, eff1⟩ := pr
  dsimp only [] at h
  rw [Prod.mk.injEq] at h
  obtain ⟨h1, -⟩ := h
  injection h1 with h2
  rw [← h2]
  simp [jobHashOf]

/-! ## Concrete environments and jobs for the witnesses -/

/-- A `Date.parse` oracle for the two ISO stamps the concrete jobs use
(2020-01-01T00:00:00Z and one minute later). -/
def dp2020 : String → Option Int := fun s =>
  if s = "2020-01-01T00:00:00Z" then some 1577836800000
  else if s = "2020-01-01T00:01:00Z" then some 1577836860000
  else if s = "2021-02-03T00:00:00Z" then some 1612310400000
  else if s = "2021-02-03T00:01:00Z" then some 1612310460000
  else none

/-- An environment where every external step succeeds: the playlist is a
media playlist with one in-window segment, ffmpeg exits 0, reads and copies
succeed, and no output directory exists yet. -/
def envAll : Env :=
  { dateParse := dp2020,
    fetch := fun _ => .ok (.media [⟨"live000.ts", some 1577836800000⟩]),
    ffmpegExit := fun _ => 0,
    readOk := fun _ => true,
    dirExists := fun _ => false,
    copyOk := fun _ _ => true }

/-- Like `envAll`, except copying any `.flac` file to the destination fails
(the caught-and-logged `copyFileSync` failure of lines 208–217). -/
def envFlacCopyFails : Env :=
  { envAll with copyOk := fun src _ => !strHasSuffix src ".flac" }

/-- Like `envAll`, but the playlist has no segment inside the window
(its only segment sits exactly at the window end). -/
def envNoSegs : Env :=
  { envAll with fetch := fun _ => .ok (.media [⟨"live000.ts", some 1577836860000⟩]) }

/-- An environment where fetching any playlist fails with a network error. -/
def envFetchFails : Env :=
  { envAll with fetch := fun _ => .error "getaddrinfo ENOTFOUND" }

/-- A one-minute clip job for the lab feed, formats `[wav, flac]`. -/
def jobWF : ClipJob :=
  { feedSlug := "rpi_orcasound_lab", start := "2020-01-01T00:00:00Z",
    endT := "2020-01-01T00:01:00Z", formats := [.wav, .flac],
    m3u8Url := some "https://live.orcasound.net/rpi_orcasound_lab/playlist.m3u8" }

/-- The same clip requesting `[wav, psd]`. -/
def jobWP : ClipJob := { jobWF with formats := [.wav, .psd] }

/-- The same clip requesting only `[psd]` (no `wav`). -/
def jobP : ClipJob := { jobWF with formats := [.psd] }

/-- The same clip with an empty formats list. -/
def jobNoFmt : ClipJob := { jobWF with formats := [] }

/-- **C8.** A job whose valid window selects no segments fails with the
empty-selection error, and its effect trace is empty: the error is raised
before any directory or file for the job is created (the temp directory and
every write come later in the source). -/
theorem processJob_empty_selection (env : Env) (cwd : String) (job : ClipJob)
    (startTs endTs : Int) (url : String) (segs : List Segment)
    (hs : env.dateParse job.start = some startTs)
    (he : env.dateParse job.endT = some endTs)
    (hlt : startTs < endTs)
    (hurl : job.m3u8Url = some url)
    (hfetch : env.fetch url = .ok (.media segs))
    (hempty : selectSegments startTs endTs segs = []) :
    processJob env cwd job =
      (.error ("No segments in range [" ++ job.start ++ " → " ++ job.endT ++ "]"),
       []) := by
  unfold processJob
  rw [hs, he]
  dsimp only []
  rw [if_neg (not_le.mpr hlt), hurl]
  dsimp only []
  rw [hfetch]
  dsimp only []
  rw [hempty]
  rfl

/-- Concrete instance of C8: the playlist's only segment sits exactly at the
window end, so the selection is empty, the job fails with the
empty-selection message, and nothing is written. -/
theorem processJob_empty_selection_witness :
    processJob envNoSegs "/app" jobWF =
      (.error ("No segments in range [" ++ jobWF.start ++ " → " ++ jobWF.endT ++ "]"),
       []) :=
  processJob_empty_selection envNoSegs "/app" jobWF 1577836800000 1577836860000
    "https://live.orcasound.net/rpi_orcasound_lab/playlist.m3u8"
    [⟨"live000.ts", some 1577836860000⟩]
    (by decide) (by decide) (by decide) rfl rfl (by decide)

set_option maxRecDepth 1000000 in
/-- Concrete instance of the amended C2: a successful run (empty formats
list) returns exactly the fingerprint of its fields. -/
theorem processJob_hash_of_fields_witness :
    ({ urls := [("meta",
        "/app/output/clips/rpi_orcasound_lab/2020/01/01/rpi_orcasound_lab_20200101000000_60s.meta.json")],
       hash := "3ed42754" } : ClipResult).hash =
      jobHash "rpi_orcasound_lab" "2020-01-01T00:00:00Z" "2020-01-01T00:01:00Z" [] :=
  processJob_hash_of_fields envAll "/app" jobNoFmt _
    [FsEffect.mkdir "/app/tmp/rpi_orcasound_lab_20200101000000_60s_3ed42754",
     FsEffect.write "/app/tmp/rpi_orcasound_lab_20200101000000_60s_3ed42754/segments.txt",
     FsEffect.write "/app/tmp/rpi_orcasound_lab_20200101000000_60s_3ed42754/rpi_orcasound_lab_20200101000000_60s.meta.json",
     FsEffect.mkdir "/app/output/clips/rpi_orcasound_lab/2020/01/01",
     FsEffect.copy
       "/app/tmp/rpi_orcasound_lab_20200101000000_60s_3ed42754/rpi_orcasound_lab_20200101000000_60s.meta.json"
       "/app/output/clips/rpi_orcasound_lab/2020/01/01/rpi_orcasound_lab_20200101000000_60s.meta.json"]
    (by decide)

/-- Looking a key up after an upsert: the upserted key answers its new value,
other keys are unchanged. -/
theorem alookup_upsert (k k' v : String) (l : List (String × String)) :
    alookup k (upsert k' v l) = if k' = k then some v else alookup k l := by
  induction l with
  | nil => simp [upsert, alookup]
  | cons hd tl ih =>
      obtain ⟨k₀, v₀⟩ := hd
      by_cases h0 : k₀ = k'
      · subst h0
        by_cases h1 : k₀ = k <;> simp [upsert, alookup, h1]
      · by_cases h1 : k₀ = k
        · subst h1
          have h2 : ¬ k' = k₀ := fun hh => h0 hh.symm
          simp [upsert, alookup, h0, h2]
        · simp [upsert, alookup, h0, h1, ih]

/-- If a key names none of the formats run through the ffmpeg loop and was
absent to begin with, it is still absent from the loop's outputs. -/
theorem ffmpegLoop_lookup_none (env : Env) (tmpDir base listFile k : String) :
    ∀ (fmts : List Fmt) (outs : List (String × String))
      (outs' : List (String × String)),
      (∀ f ∈ fmts, fmtStr f ≠ k) →
      alookup k outs = none →
      ffmpegLoop env tmpDir base listFile fmts outs = .ok outs' →
      alookup k outs' = none := by
  intro fmts
  induction fmts with
  | nil =>
      intro outs outs' _ h0 hrun
      rw [ffmpegLoop] at hrun
      cases hrun
      exact h0
  | cons fmt rest ih =>
      intro outs outs' hk h0 hrun
      rw [ffmpegLoop] at hrun
      by_cases hc : env.ffmpegExit
          (ffmpegArgs listFile fmt (tmpDir ++ "/" ++ base ++ "." ++ fmtStr fmt)) = 0
      · rw [if_pos hc] at hrun
        refine ih _ _ (fun f hf => hk f (List.mem_cons_of_mem _ hf)) ?_ hrun
        rw [alookup_upsert, if_neg (hk fmt (List.mem_cons_self _ _))]
        exact h0
      · rw [if_neg hc] at hrun
        exact absurd hrun (by simp)

/-- **C10.** A job that requests `psd` but not `wav` always fails (given a
valid window, a fetched media playlist, and a nonempty selection): either an
ffmpeg invocation fails, or the analytics step reads `outputs['wav']`, which
no loop iteration ever produced, and `readFileSync` throws on the undefined
path. Requesting metrics implicitly requires also requesting `wav`. -/
theorem processJob_psd_without_wav_fails (env : Env) (cwd : String) (job : ClipJob)
    (startTs endTs : Int) (url : String) (segs : List Segment)
    (hs : env.dateParse job.start = some startTs)
    (he : env.dateParse job.endT = some endTs)
    (hlt : startTs < endTs)
    (hurl : job.m3u8Url = some url)
    (hfetch : env.fetch url = .ok (.media segs))
    (hsel : ¬ (selectSegments startTs endTs segs).length = 0)
    (hpsd : Fmt.psd ∈ job.formats)
    (hwav : Fmt.wav ∉ job.formats) :
    ∃ e, (processJob env cwd job).1 = .error e := by
  unfold processJob
  rw [hs, he]
  dsimp only []
  rw [if_neg (not_le.mpr hlt), hurl]
  dsimp only []
  rw [hfetch]
  dsimp only []
  rw [if_neg hsel]
  cases hfl : ffmpegLoop env (jobTmpDir cwd job startTs endTs) (jobBase job startTs endTs)
      (jobListFile cwd job startTs endTs) job.formats [] with
  | error e => exact ⟨e, rfl⟩
  | ok outs0 =>
      dsimp only []
      have hnone : alookup "wav" outs0 = none := by
        refine ffmpegLoop_lookup_none env _ _ _ _ job.formats [] outs0 ?_ rfl hfl
        intro f hf
        cases f with
        | wav => exact absurd hf hwav
        | flac => simp [fmtStr]
        | psd => simp [fmtStr]
      have hcontains : job.formats.contains Fmt.psd = true := by
        simpa using hpsd
      have hana : analyticsStep env (jobTmpDir cwd job startTs endTs)
          (jobBase job startTs endTs) job.formats outs0
          [FsEffect.mkdir (jobTmpDir cwd job startTs endTs),
           FsEffect.write (jobListFile cwd job startTs endTs)] =
          .error "TypeError: the path argument is undefined" := by
        unfold analyticsStep
        rw [if_pos hcontains, hnone]
      rw [hana]
      exact ⟨_, rfl⟩

/-- Concrete instance of C10: requesting only `[psd]` on an otherwise fully
healthy job fails. -/
theorem processJob_psd_without_wav_fails_witness :
    ∃ e, (processJob envAll "/app" jobP).1 = .error e :=
  processJob_psd_without_wav_fails envAll "/app" jobP 1577836800000 1577836860000
    "https://live.orcasound.net/rpi_orcasound_lab/playlist.m3u8"
    [⟨"live000.ts", some 1577836800000⟩]
    (by decide) (by decide) (by decide) rfl rfl (by decide) (by decide) (by decide)

/-- The copy loop in closed form: the urls collect exactly the entries whose
copy succeeds (mapped to their destination), the trace gains exactly the
successful copies, and the loop never fails. -/
theorem copyLoop_spec (env : Env) (outputDir : String) :
    ∀ (entries urls : List (String × String)) (eff : List FsEffect),
      copyLoop env outputDir entries urls eff =
        (urls ++ entries.filterMap (fun e =>
            if env.copyOk e.2 (outputDir ++ "/" ++ baseName e.2)
            then some (e.1, outputDir ++ "/" ++ baseName e.2) else none),
         eff ++ entries.filterMap (fun e =>
            if env.copyOk e.2 (outputDir ++ "/" ++ baseName e.2)
            then some (FsEffect.copy e.2 (outputDir ++ "/" ++ baseName e.2)) else none)) := by
  intro entries
  induction entries with
  | nil => intro urls eff; simp [copyLoop]
  | cons e rest ih =>
      intro urls eff
      obtain ⟨fmt, localPath⟩ := e
      by_cases hc : env.copyOk localPath (outputDir ++ "/" ++ baseName localPath) = true
      · simp [copyLoop, hc, ih, List.filterMap_cons]
      · rw [Bool.not_eq_true] at hc
        simp [copyLoop, hc, ih, List.filterMap_cons]

/-- **C7, amended.** A destination copy that fails partway through
persisting the artifact set does NOT fail the job: the error is caught and
only logged, the job still returns success, every url in the result is an
artifact whose copy succeeded (the failed artifact is silently absent), and
the successfully copied sibling files remain in the trace (nothing is rolled
back). -/
theorem processJob_copy_failure_swallowed (env : Env) (cwd : String) (job : ClipJob)
    (startTs endTs : Int) (url : String) (segs : List Segment)
    (outs0 outs1 : List (String × String)) (eff1 : List FsEffect)
    (fmtF pF : String)
    (hs : env.dateParse job.start = some startTs)
    (he : env.dateParse job.endT = some endTs)
    (hlt : startTs < endTs)
    (hurl : job.m3u8Url = some url)
    (hfetch : env.fetch url = .ok (.media segs))
    (hsel : ¬ (selectSegments startTs endTs segs).length = 0)
    (hffm : ffmpegLoop env (jobTmpDir cwd job startTs endTs) (jobBase job startTs endTs)
      (jobListFile cwd job startTs endTs) job.formats [] = .ok outs0)
    (hana : analyticsStep env (jobTmpDir cwd job startTs endTs) (jobBase job startTs endTs)
      job.formats outs0
      [FsEffect.mkdir (jobTmpDir cwd job startTs endTs),
       FsEffect.write (jobListFile cwd job startTs endTs)] = .ok (outs1, eff1))
    (_hmem : (fmtF, pF) ∈ upsert "meta" (jobMetaPath cwd job startTs endTs) outs1)
    (_hfail : env.copyOk pF (jobOutputDir cwd job startTs ++ "/" ++ baseName pF) = false) :
    ∃ r eff, processJob env cwd job = (.ok r, eff) ∧
      (∀ fd ∈ r.urls,
        ∃ p, (fd.1, p) ∈ upsert "meta" (jobMetaPath cwd job startTs endTs) outs1 ∧
          fd.2 = jobOutputDir cwd job startTs ++ "/" ++ baseName p ∧
          env.copyOk p fd.2 = true) ∧
      (∀ e ∈ upsert "meta" (jobMetaPath cwd job startTs endTs) outs1,
        env.copyOk e.2 (jobOutputDir cwd job startTs ++ "/" ++ baseName e.2) = true →
        FsEffect.copy e.2 (jobOutputDir cwd job startTs ++ "/" ++ baseName e.2) ∈ eff) := by
  unfold processJob
  rw [hs, he]
  dsimp only []
  rw [if_neg (not_le.mpr hlt), hurl]
  dsimp only []
  rw [hfetch]
  dsimp only []
  rw [if_neg hsel, hffm]
  dsimp only []
  rw [hana]
  dsimp only []
  rw [copyLoop_spec]
  refine ⟨_, _, rfl, ?_, ?_⟩
  · intro fd hfd
    dsimp only [] at hfd
    rw [List.nil_append, List.mem_filterMap] at hfd
    obtain ⟨a, ha, hfa⟩ := hfd
    by_cases hc : env.copyOk a.2 (jobOutputDir cwd job startTs ++ "/" ++ baseName a.2) = true
    · rw [if_pos hc] at hfa
      obtain ⟨h1, h2⟩ := Prod.mk.injEq .. ▸ (Option.some.injEq .. ▸ hfa)
      refine ⟨a.2, ?_, ?_, ?_⟩
      · rw [← h1]; exact ha
      · rw [← h2]
      · rw [← h2]; exact hc
    · rw [Bool.not_eq_true] at hc
      rw [if_neg (by rw [hc]; exact Bool.false_ne_true)] at hfa
      exact absurd hfa (by simp)
  · intro e he' hc
    refine List.mem_append_right _ ?_
    rw [List.mem_filterMap]
    exact ⟨e, he', by rw [if_pos hc]⟩

set_option maxRecDepth 1000000 in
/-- Concrete instance of the amended C7: requesting `[wav, flac]` with the
flac copy failing still yields a success whose urls hold only successfully
copied artifacts, with the successful sibling copies left in the trace. -/
theorem processJob_copy_failure_swallowed_witness :
    ∃ r eff, processJob envFlacCopyFails "/app" jobWF = (.ok r, eff) ∧
      (∀ fd ∈ r.urls,
        ∃ p, (fd.1, p) ∈ upsert "meta"
            (jobMetaPath "/app" jobWF 1577836800000 1577836860000)
            [("wav",
              "/app/tmp/rpi_orcasound_lab_20200101000000_60s_84d46bba/rpi_orcasound_lab_20200101000000_60s.wav"),
             ("flac",
              "/app/tmp/rpi_orcasound_lab_20200101000000_60s_84d46bba/rpi_orcasound_lab_20200101000000_60s.flac")] ∧
          fd.2 = jobOutputDir "/app" jobWF 1577836800000 ++ "/" ++ baseName p ∧
          envFlacCopyFails.copyOk p fd.2 = true) ∧
      (∀ e ∈ upsert "meta" (jobMetaPath "/app" jobWF 1577836800000 1577836860000)
            [("wav",
              "/app/tmp/rpi_orcasound_lab_20200101000000_60s_84d46bba/rpi_orcasound_lab_20200101000000_60s.wav"),
             ("flac",
              "/app/tmp/rpi_orcasound_lab_20200101000000_60s_84d46bba/rpi_orcasound_lab_20200101000000_60s.flac")],
        envFlacCopyFails.copyOk e.2
            (jobOutputDir "/app" jobWF 1577836800000 ++ "/" ++ baseName e.2) = true →
        FsEffect.copy e.2
            (jobOutputDir "/app" jobWF 1577836800000 ++ "/" ++ baseName e.2) ∈ eff) :=
  processJob_copy_failure_swallowed envFlacCopyFails "/app" jobWF
    1577836800000 1577836860000
    "https://live.orcasound.net/rpi_orcasound_lab/playlist.m3u8"
    [⟨"live000.ts", some 1577836800000⟩]
    [("wav",
      "/app/tmp/rpi_orcasound_lab_20200101000000_60s_84d46bba/rpi_orcasound_lab_20200101000000_60s.wav"),
     ("flac",
      "/app/tmp/rpi_orcasound_lab_20200101000000_60s_84d46bba/rpi_orcasound_lab_20200101000000_60s.flac")]
    [("wav",
      "/app/tmp/rpi_orcasound_lab_20200101000000_60s_84d46bba/rpi_orcasound_lab_20200101000000_60s.wav"),
     ("flac",
      "/app/tmp/rpi_orcasound_lab_20200101000000_60s_84d46bba/rpi_orcasound_lab_20200101000000_60s.flac")]
    [FsEffect.mkdir "/app/tmp/rpi_orcasound_lab_20200101000000_60s_84d46bba",
     FsEffect.write "/app/tmp/rpi_orcasound_lab_20200101000000_60s_84d46bba/segments.txt"]
    "flac"
    "/app/tmp/rpi_orcasound_lab_20200101000000_60s_84d46bba/rpi_orcasound_lab_20200101000000_60s.flac"
    (by decide) (by decide) (by decide) rfl rfl (by decide) (by decide) (by decide)
    (by decide) (by decide)

set_option maxRecDepth 1000000 in
/-- **C7, counterexample.** In an environment where copying the flac
artifact to its destination fails, `processJob` does NOT report the job as
failed: it returns success, with the flac entry silently absent from the
returned urls (the claim says a write failure must fail the job with a
write error). -/
theorem processJob_copy_failure_not_reported :
    envFlacCopyFails.copyOk
        "/app/tmp/rpi_orcasound_lab_20200101000000_60s_84d46bba/rpi_orcasound_lab_20200101000000_60s.flac"
        "/app/output/clips/rpi_orcasound_lab/2020/01/01/rpi_orcasound_lab_20200101000000_60s.flac"
      = false ∧
    Fmt.flac ∈ jobWF.formats ∧
    (processJob envFlacCopyFails "/app" jobWF).1 =
      .ok { urls :=
              [("wav",
                "/app/output/clips/rpi_orcasound_lab/2020/01/01/rpi_orcasound_lab_20200101000000_60s.wav"),
               ("meta",
                "/app/output/clips/rpi_orcasound_lab/2020/01/01/rpi_orcasound_lab_20200101000000_60s.meta.json")],
            hash := "84d46bba" } ∧
    alookup "flac"
      [("wav",
        "/app/output/clips/rpi_orcasound_lab/2020/01/01/rpi_orcasound_lab_20200101000000_60s.wav"),
       ("meta",
        "/app/output/clips/rpi_orcasound_lab/2020/01/01/rpi_orcasound_lab_20200101000000_60s.meta.json")]
      = none := by
  refine ⟨by decide, by decide, by decide, by decide⟩

/-- Membership after an upsert: the element is the upserted pair or was
already present. -/
theorem mem_upsert (k v : String) (l : List (String × String))
    (e : String × String) (h : e ∈ upsert k v l) : e = (k, v) ∨ e ∈ l := by
  induction l with
  | nil => rw [upsert] at h; simpa using h
  | cons hd tl ih =>
      obtain ⟨k₀, v₀⟩ := hd
      rw [upsert] at h
      by_cases h0 : k₀ = k
      · rw [if_pos h0] at h
        rcases List.mem_cons.mp h with h1 | h1
        · exact Or.inl h1
        · exact Or.inr (List.mem_cons_of_mem _ h1)
      · rw [if_neg h0] at h
        rcases List.mem_cons.mp h with h1 | h1
        · exact Or.inr (h1 ▸ List.mem_cons_self _ _)
        · rcases ih h1 with h2 | h2
          · exact Or.inl h2
          · exact Or.inr (List.mem_cons_of_mem _ h2)

/-- Every output recorded by the ffmpeg loop is either an initial entry or
the pair `(fmt, tmpDir/base.fmt)` for one of the requested formats. -/
theorem ffmpegLoop_mem (env : Env) (tmpDir base listFile : String) :
    ∀ (fmts : List Fmt) (outs outs' : List (String × String)),
      ffmpegLoop env tmpDir base listFile fmts outs = .ok outs' →
      ∀ e ∈ outs', e ∈ outs ∨
        ∃ fmt ∈ fmts, e = (fmtStr fmt, tmpDir ++ "/" ++ base ++ "." ++ fmtStr fmt) := by
  intro fmts
  induction fmts with
  | nil =>
      intro outs outs' hrun e he
      rw [ffmpegLoop] at hrun
      cases hrun
      exact Or.inl he
  | cons fmt rest ih =>
      intro outs outs' hrun e he
      rw [ffmpegLoop] at hrun
      by_cases hc : env.ffmpegExit
          (ffmpegArgs listFile fmt (tmpDir ++ "/" ++ base ++ "." ++ fmtStr fmt)) = 0
      · rw [if_pos hc] at hrun
        rcases ih _ _ hrun e he with h1 | ⟨f, hf, hef⟩
        · rcases mem_upsert _ _ _ _ h1 with h2 | h2
          · exact Or.inr ⟨fmt, List.mem_cons_self _ _, h2⟩
          · exact Or.inl h2
        · exact Or.inr ⟨f, List.mem_cons_of_mem _ hf, hef⟩
      · rw [if_neg hc] at hrun
        exact absurd hrun (by simp)

/-- Every output after the analytics step is either an input entry or the
pair `("psd", tmpDir/base.psd.json)`. -/
theorem analyticsStep_mem (env : Env) (tmpDir base : String) (formats : List Fmt)
    (outs outs1 : List (String × String)) (eff eff1 : List FsEffect)
    (h : analyticsStep env tmpDir base formats outs eff = .ok (outs1, eff1)) :
    ∀ e ∈ outs1, e ∈ outs ∨ e = ("psd", tmpDir ++ "/" ++ base ++ ".psd.json") := by
  intro e he
  unfold analyticsStep at h
  by_cases hc : formats.contains Fmt.psd = true
  · rw [if_pos hc] at h
    cases hl : alookup "wav" outs with
    | none => rw [hl] at h; exact absurd h (by simp)
    | some wavPath =>
        rw [hl] at h
        dsimp only [] at h
        by_cases hr : env.readOk wavPath = true
        · rw [if_pos hr] at h
          obtain ⟨h1, -⟩ := Prod.mk.injEq .. ▸ (Except.ok.injEq .. ▸ h)
          rw [← h1] at he
          rcases mem_upsert _ _ _ _ he with h2 | h2
          · exact Or.inr h2
          · exact Or.inl h2
        · rw [Bool.not_eq_true] at hr
          rw [hr] at h
          exact absurd h (by simp)
  · rw [Bool.not_eq_true] at hc
    rw [hc] at h
    dsimp only [] at h
    obtain ⟨h1, -⟩ := Prod.mk.injEq .. ▸ (Except.ok.injEq .. ▸ h)
    rw [← h1] at he
    exact Or.inl he

/-- **C9, amended.** Every artifact the worker persists is named
`<feed>_<start-compact-timestamp>_<duration>s.<ext>` — the per-file basenames
are built from `base` alone and do NOT carry the job fingerprint (the
fingerprint appears only in the temp directory name `tmp/<base>_<hash>`):
each url's local source is `tmpDir/<base>.<ext>` for one of the five
extensions, and its destination is that file's basename under the partitioned
output directory. -/
theorem processJob_artifact_names (env : Env) (cwd : String) (job : ClipJob)
    (startTs endTs : Int) (url : String) (segs : List Segment)
    (outs0 outs1 : List (String × String)) (eff1 : List FsEffect)
    (hs : env.dateParse job.start = some startTs)
    (he : env.dateParse job.endT = some endTs)
    (hlt : startTs < endTs)
    (hurl : job.m3u8Url = some url)
    (hfetch : env.fetch url = .ok (.media segs))
    (hsel : ¬ (selectSegments startTs endTs segs).length = 0)
    (hffm : ffmpegLoop env (jobTmpDir cwd job startTs endTs) (jobBase job startTs endTs)
      (jobListFile cwd job startTs endTs) job.formats [] = .ok outs0)
    (hana : analyticsStep env (jobTmpDir cwd job startTs endTs) (jobBase job startTs endTs)
      job.formats outs0
      [FsEffect.mkdir (jobTmpDir cwd job startTs endTs),
       FsEffect.write (jobListFile cwd job startTs endTs)] = .ok (outs1, eff1)) :
    ∃ r eff, processJob env cwd job = (.ok r, eff) ∧
      ∀ fd ∈ r.urls, ∃ p name,
        name ∈ [jobBase job startTs endTs ++ ".wav",
                jobBase job startTs endTs ++ ".flac",
                jobBase job startTs endTs ++ ".psd",
                jobBase job startTs endTs ++ ".psd.json",
                jobBase job startTs endTs ++ ".meta.json"] ∧
        p = jobTmpDir cwd job startTs endTs ++ "/" ++ name ∧
        fd.2 = jobOutputDir cwd job startTs ++ "/" ++ baseName p := by
  unfold processJob
  rw [hs, he]
  dsimp only []
  rw [if_neg (not_le.mpr hlt), hurl]
  dsimp only []
  rw [hfetch]
  dsimp only []
  rw [if_neg hsel, hffm]
  dsimp only []
  rw [hana]
  dsimp only []
  rw [copyLoop_spec]
  refine ⟨_, _, rfl, ?_⟩
  intro fd hfd
  dsimp only [] at hfd
  rw [List.nil_append, List.mem_filterMap] at hfd
  obtain ⟨a, ha, hfa⟩ := hfd
  by_cases hc : env.copyOk a.2 (jobOutputDir cwd job startTs ++ "/" ++ baseName a.2) = true
  · rw [if_pos hc] at hfa
    obtain ⟨-, h2⟩ := Prod.mk.injEq .. ▸ (Option.some.injEq .. ▸ hfa)
    refine ⟨a.2, ?_⟩
    rcases mem_upsert _ _ _ _ ha with hm | hm
    · refine ⟨jobBase job startTs endTs ++ ".meta.json", by simp, ?_, ?_⟩
      · rw [hm]
        dsimp only [jobMetaPath]
        rw [String.append_assoc]
      · rw [← h2]
    · rcases analyticsStep_mem env _ _ _ _ _ _ _ hana a hm with hm1 | hm1
      · rcases ffmpegLoop_mem env _ _ _ _ _ _ hffm a hm1 with hm2 | ⟨fmt, hfmt, hm2⟩
        · exact absurd hm2 (List.not_mem_nil a)
        · refine ⟨jobBase job startTs endTs ++ "." ++ fmtStr fmt, ?_, ?_, ?_⟩
          · cases fmt
            · simp [fmtStr, String.append_assoc]
            · simp [fmtStr, String.append_assoc]
            · simp [fmtStr, String.append_assoc]
          · rw [hm2]
            dsimp only []
            simp [String.append_assoc]
          · rw [← h2]
      · refine ⟨jobBase job startTs endTs ++ ".psd.json", by simp, ?_, ?_⟩
        · rw [hm1]
          dsimp only []
          rw [String.append_assoc]
        · rw [← h2]
  · rw [Bool.not_eq_true] at hc
    rw [if_neg (by rw [hc]; exact Bool.false_ne_true)] at hfa
    exact absurd hfa (by simp)

set_option maxRecDepth 1000000 in
/-- Concrete instance of the amended C9: for a successful `[wav, psd]` job
every persisted url names a `<base>.<ext>` file under the temp directory,
copied under its basename to the partitioned output directory. -/
theorem processJob_artifact_names_witness :
    ∃ r eff, processJob envAll "/app" jobWP = (.ok r, eff) ∧
      ∀ fd ∈ r.urls, ∃ p name,
        name ∈ [jobBase jobWP 1577836800000 1577836860000 ++ ".wav",
                jobBase jobWP 1577836800000 1577836860000 ++ ".flac",
                jobBase jobWP 1577836800000 1577836860000 ++ ".psd",
                jobBase jobWP 1577836800000 1577836860000 ++ ".psd.json",
                jobBase jobWP 1577836800000 1577836860000 ++ ".meta.json"] ∧
        p = jobTmpDir "/app" jobWP 1577836800000 1577836860000 ++ "/" ++ name ∧
        fd.2 = jobOutputDir "/app" jobWP 1577836800000 ++ "/" ++ baseName p :=
  processJob_artifact_names envAll "/app" jobWP 1577836800000 1577836860000
    "https://live.orcasound.net/rpi_orcasound_lab/playlist.m3u8"
    [⟨"live000.ts", some 1577836800000⟩]
    [("wav",
      "/app/tmp/rpi_orcasound_lab_20200101000000_60s_da415840/rpi_orcasound_lab_20200101000000_60s.wav"),
     ("psd",
      "/app/tmp/rpi_orcasound_lab_20200101000000_60s_da415840/rpi_orcasound_lab_20200101000000_60s.psd")]
    [("wav",
      "/app/tmp/rpi_orcasound_lab_20200101000000_60s_da415840/rpi_orcasound_lab_20200101000000_60s.wav"),
     ("psd",
      "/app/tmp/rpi_orcasound_lab_20200101000000_60s_da415840/rpi_orcasound_lab_20200101000000_60s.psd.json")]
    [FsEffect.mkdir "/app/tmp/rpi_orcasound_lab_20200101000000_60s_da415840",
     FsEffect.write "/app/tmp/rpi_orcasound_lab_20200101000000_60s_da415840/segments.txt",
     FsEffect.write
       "/app/tmp/rpi_orcasound_lab_20200101000000_60s_da415840/rpi_orcasound_lab_20200101000000_60s.psd.json"]
    (by decide) (by decide) (by decide) rfl rfl (by decide) (by decide) (by decide)

set_option maxRecDepth 1000000 in
/-- **C9, counterexample.** For a successful `[wav, psd]` job the wav
artifact's destination basename is
`rpi_orcasound_lab_20200101000000_60s.wav`, which does not contain the job's
fingerprint `da415840` — the claimed basename form
`<feed>_<ts>_<dur>s_<fingerprint>.<ext>` is not what the worker writes. -/
theorem artifact_basename_lacks_fingerprint :
    jobHashOf jobWP = "da415840" ∧
    (match (processJob envAll "/app" jobWP).1 with
     | .ok r => alookup "wav" r.urls
     | .error _ => none) =
      some "/app/output/clips/rpi_orcasound_lab/2020/01/01/rpi_orcasound_lab_20200101000000_60s.wav" ∧
    strContains
      (baseName "/app/output/clips/rpi_orcasound_lab/2020/01/01/rpi_orcasound_lab_20200101000000_60s.wav")
      (jobHashOf jobWP) = false := by
  refine ⟨by decide, by decide, by decide⟩

/-- The batch loop's summary is the row-wise image of `entryOf` applied to
each row's own `processJob` outcome. -/
theorem batchLoop_fst (env : Env) (cwd : String) (fmts : List Fmt) :
    ∀ rows : List Row,
      (batchLoop env cwd fmts rows).1 =
        rows.map (fun r => entryOf r (processJob env cwd (rowJob fmts r)).1) := by
  intro rows
  induction rows with
  | nil => simp [batchLoop]
  | cons r rest ih => simp [batchLoop, ih]

/-- The summary `cliBatch` returns is the batch loop's summary: the trailing
summary write does not change it. -/
theorem cliBatch_fst (env : Env) (cwd : String) (fmts : List Fmt) (rows : List Row) :
    (cliBatch env cwd fmts rows).1 = (batchLoop env cwd fmts rows).1 := by
  cases rows <;> simp [cliBatch]

/-- **C5.** Batch processing yields exactly one summary entry per input row,
in input order: the summary has the same length as the row list, and the
`j`-th entry is the `j`-th row's own outcome — success with the url map, or
failure with the error message (`entryOf`). Each entry depends only on its
own row's `processJob` result, so a failing job leaves every later row's
entry intact. -/
theorem cliBatch_summary_complete (env : Env) (cwd : String) (fmts : List Fmt)
    (rows : List Row) :
    (cliBatch env cwd fmts rows).1.length = rows.length ∧
    ∀ j, j < rows.length →
      ∃ r, rows[j]? = some r ∧
        (cliBatch env cwd fmts rows).1[j]? =
          some (entryOf r (processJob env cwd (rowJob fmts r)).1) := by
  have hb : (cliBatch env cwd fmts rows).1 =
      rows.map (fun r => entryOf r (processJob env cwd (rowJob fmts r)).1) :=
    (cliBatch_fst env cwd fmts rows).trans (batchLoop_fst env cwd fmts rows)
  constructor
  · rw [hb, List.length_map]
  · intro j hj
    refine ⟨rows.get ⟨j, hj⟩, ?_, ?_⟩
    · exact List.getElem?_eq_getElem hj
    · rw [hb, List.getElem?_map, List.getElem?_eq_getElem hj]
      rfl

/-- Manifest row: lab feed, 2020-01-01 minute. -/
def rowA : Row :=
  { feedSlug := "rpi_orcasound_lab", start := "2020-01-01T00:00:00Z",
    endT := "2020-01-01T00:01:00Z" }

/-- Manifest row: bush-point feed, 2021-02-03 minute — a second distinct
`(feed, date)` group. -/
def rowB : Row :=
  { feedSlug := "rpi_bush_point", start := "2021-02-03T00:00:00Z",
    endT := "2021-02-03T00:01:00Z" }

/-- Concrete instance of C5: in a two-row batch the second entry is the
second row's own outcome, whatever became of the first row. -/
theorem cliBatch_summary_complete_witness :
    ∃ r, ([rowA, rowB] : List Row)[1]? = some r ∧
      (cliBatch envFetchFails "/app" [Fmt.wav] [rowA, rowB]).1[1]? =
        some (entryOf r (processJob envFetchFails "/app" (rowJob [Fmt.wav] r)).1) :=
  (cliBatch_summary_complete envFetchFails "/app" [Fmt.wav] [rowA, rowB]).2 1
    (by decide)

/-- **C6, counterexample.** A batch containing two distinct `(feed, date)`
groups writes its only summary document into the FIRST row's directory: the
full effect trace of the run holds exactly one `pairs.json` write, under
`rpi_orcasound_lab/2020/01/01`, and no summary write for `rowB`'s group
`rpi_bush_point/2021/02/03` exists — not one summary per distinct group. -/
theorem cliBatch_no_summary_for_second_group :
    rowB ∈ ([rowA, rowB] : List Row) ∧
    (cliBatch envFetchFails "/app" [Fmt.wav] [rowA, rowB]).2 =
      [FsEffect.mkdir "/app/output/clips/rpi_orcasound_lab/2020/01/01",
       FsEffect.write "/app/output/clips/rpi_orcasound_lab/2020/01/01/pairs.json"] ∧
    ¬ (FsEffect.write (groupDir envFetchFails "/app" rowB ++ "/pairs.json") ∈
        (cliBatch envFetchFails "/app" [Fmt.wav] [rowA, rowB]).2) := by
  refine ⟨by decide, by decide, by decide⟩

/-- **C6, amended.** After all jobs of a nonempty batch are attempted, a
single batch-level summary document `pairs.json` is written, as the final
file-system action of the run, into the partitioned directory derived from
the FIRST manifest row's feed and start date — regardless of how many
distinct `(feed, date)` groups the batch contains. -/
theorem cliBatch_single_summary (env : Env) (cwd : String) (fmts : List Fmt)
    (first : Row) (rest : List Row) :
    ((cliBatch env cwd fmts (first :: rest)).2).getLast? =
      some (FsEffect.write (groupDir env cwd first ++ "/pairs.json")) := by
  show (List.getLast? _) = _
  rw [cliBatch]
  dsimp only []
  rw [List.getLast?_concat]

/-- **C4.** PSD framing: for `N` samples and frame size 1024 the PSD has
exactly `⌊N/1024⌋` frames; the `j`-th frame is the transform of the `j`-th
full 1024-sample slice `samples.slice(1024j, 1024j+1024)`, taken in time
order without overlap, and each such slice is exactly 1024 samples long — a
trailing partial slice is dropped, never zero-padded. -/
theorem psd_framing (g : List ℚ → List ℚ) (samples : List ℚ) :
    (psdOf g samples).length = samples.length / 1024 ∧
    ∀ j, j < samples.length / 1024 →
      (psdOf g samples)[j]? = some (g ((samples.drop (j * 1024)).take 1024)) ∧
      ((samples.drop (j * 1024)).take 1024).length = 1024 := by
  constructor
  · simp [psdOf, psdChunks]
  · intro j hj
    constructor
    · simp [psdOf, psdChunks, List.getElem?_map, List.getElem?_range, hj]
    · have h1 : (j + 1) * 1024 ≤ samples.length := by
        calc (j + 1) * 1024 ≤ samples.length / 1024 * 1024 :=
              Nat.mul_le_mul_right _ hj
          _ ≤ samples.length := Nat.div_mul_le_self _ _
      rw [List.length_take, List.length_drop]
      omega

/-- Concrete instance of C4: 2049 samples give exactly two frames (the
trailing one-sample remainder is dropped), and frame 1 is the second full
1024-sample slice. -/
theorem psd_framing_witness :
    (psdOf id (List.replicate 2049 (0 : ℚ))).length =
      (List.replicate 2049 (0 : ℚ)).length / 1024 ∧
    ((psdOf id (List.replicate 2049 (0 : ℚ)))[1]? =
        some (id (((List.replicate 2049 (0 : ℚ)).drop (1 * 1024)).take 1024)) ∧
      (((List.replicate 2049 (0 : ℚ)).drop (1 * 1024)).take 1024).length = 1024) :=
  ⟨(psd_framing id (List.replicate 2049 (0 : ℚ))).1,
   (psd_framing id (List.replicate 2049 (0 : ℚ))).2 1
     (by rw [List.length_replicate]; norm_num)⟩

/-- The frames of 1536 constant samples: one full constant frame, the
half-frame remainder dropped. -/
theorem psdChunks_constant_1536 :
    psdChunks 1024 (List.replicate 1536 (1 : ℚ)) = [List.replicate 1024 (1 : ℚ)] := by
  rw [psdChunks, List.length_replicate]
  norm_num
  rw [show List.range 1 = [0] from rfl, List.map_cons, List.map_nil]
  norm_num

/-- A constant-one frame has a bin above the threshold `1 * 4/5`. -/
theorem constant_frame_transient :
    (List.replicate 1024 (1 : ℚ)).any
      (fun m => decide (m > (1 : ℚ) * (4 / 5))) = true := by
  rw [List.any_eq_true]
  refine ⟨1, List.mem_replicate.mpr ⟨by norm_num, rfl⟩, by norm_num⟩

/-- **C3, counterexample.** On 1536 constant samples (one full frame plus a
half frame) with the identity as the transform and crest factor 1, the code's
transience rate is `1 / (1536/1024) * 60 = 40` — the denominator is the
exact quotient `N / F` — while the claimed
`(transientFrameCount / totalFrameCount) * 60` with `totalFrameCount` the
number of PSD frames (one) gives 60. -/
theorem transienceRate_not_spec :
    transienceRate id 1 (List.replicate 1536 (1 : ℚ)) = 40 ∧
    specTransienceRate id 1 (List.replicate 1536 (1 : ℚ)) = 60 ∧
    ¬ (transienceRate id 1 (List.replicate 1536 (1 : ℚ)) =
       specTransienceRate id 1 (List.replicate 1536 (1 : ℚ))) := by
  have hw : transientWindows id 1 (List.replicate 1536 (1 : ℚ)) =
      [List.replicate 1024 (1 : ℚ)] := by
    rw [transientWindows, psdOf, psdChunks_constant_1536]
    simp only [List.map_id, List.filter_cons, id_eq, constant_frame_transient,
      if_true, List.filter_nil]
  have h1 : transienceRate id 1 (List.replicate 1536 (1 : ℚ)) = 40 := by
    rw [transienceRate, hw]
    simp only [List.length_cons, List.length_nil, List.length_replicate]
    norm_num
  have h2 : specTransienceRate id 1 (List.replicate 1536 (1 : ℚ)) = 60 := by
    rw [specTransienceRate, psdOf, psdChunks_constant_1536]
    simp only [List.map_id, List.filter_cons, constant_frame_transient,
      if_true, List.filter_nil, List.length_cons, List.length_nil]
    norm_num
  exact ⟨h1, h2, by rw [h1, h2]; norm_num⟩

/-- **C3, amended.** The transience rate is
`count / (N / 1024) * 60` where the denominator is the exact (unfloored)
quotient of the sample count by the frame size, and `count` counts the
frames `c` for which the transform applied TWICE (`g (g c)` — the source
takes `fftMag(fft(win))` of `win`, itself already a magnitude spectrum)
shows a bin above `crestFactor * 0.8`. When 1024 divides the sample count,
the denominator does equal the number of PSD frames, as the specification
words it. -/
theorem transienceRate_eq (g : List ℚ → List ℚ) (cf : ℚ) (samples : List ℚ) :
    transienceRate g cf samples =
      (((psdChunks 1024 samples).filter
          (fun c => (g (g c)).any (fun m => decide (m > cf * (4 / 5))))).length : ℚ) /
        ((samples.length : ℚ) / 1024) * 60 ∧
    (1024 ∣ samples.length →
      transienceRate g cf samples =
        (((psdChunks 1024 samples).filter
            (fun c => (g (g c)).any (fun m => decide (m > cf * (4 / 5))))).length : ℚ) /
          ((psdOf g samples).length : ℚ) * 60) := by
  have hfm : transientWindows g cf samples =
      ((psdChunks 1024 samples).filter
        (fun c => (g (g c)).any (fun m => decide (m > cf * (4 / 5))))).map g := by
    rw [transientWindows, psdOf, List.filter_map]
    rfl
  constructor
  · rw [transienceRate, hfm, List.length_map]
  · rintro ⟨k, hk⟩
    rw [transienceRate, hfm, List.length_map, psdOf, List.length_map]
    have hlen : (psdChunks 1024 samples).length = k := by
      rw [psdChunks, List.length_map, List.length_range, hk,
        Nat.mul_div_cancel_left k (by norm_num)]
    rw [hlen]
    have hq : ((samples.length : ℚ) / 1024) = (k : ℚ) := by
      rw [hk]
      push_cast
      field_simp
    rw [hq]

/-- Concrete instance of the amended C3: 2048 zero samples (an exact two
frames), identity transform, crest factor 1 — the sample count is divisible
by the frame size, so the denominator equals the frame count. -/
theorem transienceRate_eq_witness :
    transienceRate id 1 (List.replicate 2048 (0 : ℚ)) =
      (((psdChunks 1024 (List.replicate 2048 (0 : ℚ))).filter
          (fun c => (id (id c)).any (fun m => decide (m > (1 : ℚ) * (4 / 5))))).length : ℚ) /
        ((psdOf id (List.replicate 2048 (0 : ℚ))).length : ℚ) * 60 :=
  (transienceRate_eq id 1 (List.replicate 2048 (0 : ℚ))).2
    (by rw [List.length_replicate]; decide)
